import Mathlib

/-!
Shallow embedding of the `ahorro-exchangerate-cooker` Lambda
(`src/app/main.go`), a scheduled job that fetches exchange rates per
configured base currency and stores them in DynamoDB, keyed by
(currency, date).  External effects (DynamoDB, the HTTP provider, the
clock) are modelled by explicit state and per-currency oracles.

Numeric rates (Go `float64`) are modelled as `Rat`: the code never
computes with them, it only passes them from the decoded response to the
stored record.  Timestamps (`time.Time`) are modelled as `Nat`.
-/

namespace Cooker

/-- Model of Go struct `ExchangeRateResponse` (the decoded provider body):
fields `result`, `base_code`, `conversion_rates`.  A JSON body without a
`result` field decodes to `result = ""` in Go, which is kept here. -/
structure ExchangeRateResponse where
  result : String
  baseCode : String
  conversionRates : List (String × Rat)
deriving DecidableEq

/-- Model of Go struct `ExchangeRateRecord` stored in DynamoDB:
`Key`, `SortKey`, `ExchangeRates`, `UpdatedAt`. -/
structure ExchangeRateRecord where
  key : String
  sortKey : String
  exchangeRates : List (String × Rat)
  updatedAt : Nat
deriving DecidableEq

/-- Model of Go struct `SupportedCurrenciesRecord`. -/
structure SupportedCurrenciesRecord where
  key : String
  sortKey : String
  supportedCurrencies : List String
  updatedAt : Nat
deriving DecidableEq

/-- The DynamoDB table restricted to exchange-rate records, keyed by
(`Key`, `SortKey`).  `PutItem` overwrites, `GetItem` is a point lookup.
The supported-currencies singleton lives under key `"SupportedCurrencies"`
with sort key `"-"`, which no (currency, date) pair produces, so it is
modelled as separate state. -/
def Table : Type := List ExchangeRateRecord

instance : DecidableEq Table := inferInstanceAs (DecidableEq (List ExchangeRateRecord))

/-- DynamoDB `GetItem` on the (Key, SortKey) pair, as used by
`checkExistingExchangeRates`. -/
def getItem (table : Table) (k sk : String) : Option ExchangeRateRecord :=
  table.find? (fun r => r.key == k && r.sortKey == sk)

/-- DynamoDB `PutItem`: upsert by (Key, SortKey). -/
def putItem (table : Table) (r : ExchangeRateRecord) : Table :=
  r :: table.filter (fun x => !(x.key == r.key && x.sortKey == r.sortKey))

/-- Go `checkExistingExchangeRates(baseCurrency, date)`: point lookup;
`none` is a normal miss.  Store/unmarshal failures are modelled by the
orchestration-level fault oracle, not here. -/
def checkExistingExchangeRates (table : Table) (baseCurrency date : String) :
    Option ExchangeRateRecord :=
  getItem table baseCurrency date

/-- Go `storeExchangeRates(baseCurrency, date, rates)` on the successful
path: builds the record with `UpdatedAt = time.Now()` (passed as `now`)
and puts it. -/
def storeExchangeRates (table : Table) (baseCurrency date : String)
    (rates : ExchangeRateResponse) (now : Nat) : Table :=
  putItem table
    { key := baseCurrency
      sortKey := date
      exchangeRates := rates.conversionRates
      updatedAt := now }

/-- Go `storeSupportedCurrencies()`: upserts the singleton record with
`UpdatedAt = time.Now()`; on failure the stored state is unchanged.
Returns the new state and whether the write succeeded. -/
def storeSupportedCurrencies (fails : Bool) (currencies : List String) (now : Nat)
    (scs : Option SupportedCurrenciesRecord) :
    Option SupportedCurrenciesRecord × Bool :=
  if fails then (scs, false)
  else
    (some { key := "SupportedCurrencies"
            sortKey := "-"
            supportedCurrencies := currencies
            updatedAt := now }, true)

/-! ### fetchExchangeRates -/

/-- Go `r < 'A' || r > 'Z'` negated: the rune (code point) is an
uppercase ASCII letter. -/
def isUppercaseAZ (c : Char) : Bool :=
  decide (65 ≤ c.toNat) && decide (c.toNat ≤ 90)

/-- UTF-8 byte size of one code point, as Go's string encoding counts it. -/
def utf8Bytes (c : Char) : Nat :=
  if c.toNat ≤ 0x7F then 1
  else if c.toNat ≤ 0x7FF then 2
  else if c.toNat ≤ 0xFFFF then 3
  else 4

/-- Go `len(s)` on a string: its UTF-8 byte length. -/
def goLen (s : List Char) : Nat :=
  (s.map utf8Bytes).sum

/-- The distinct error exits of `fetchExchangeRates`. -/
inductive FetchError where
  | badLength : FetchError
  | notUppercase : FetchError
  | network : FetchError
  | badStatus : Nat → FetchError
  | decodeFailed : FetchError
  | apiResult : String → FetchError
deriving DecidableEq

/-- What the HTTP transport hands back when a request is issued:
an HTTP status and, for the body, `some` decoded response or `none`
when the body does not decode as `ExchangeRateResponse`. -/
structure HttpResult where
  status : Nat
  body : Option ExchangeRateResponse
deriving DecidableEq

/-- Go `fetchExchangeRates(baseCurrency)`.  `http` is the transport
oracle for this call: `none` is a transport error, `some` the response
received (from the authenticated URL when `apiKey ≠ ""`, else the public
URL).  The second component counts HTTP requests issued (0 or 1).
The validation, status, decode and result-field checks follow the source
order; the result-field check reads the decoded body only and does not
branch on `apiKey`. -/
def fetchExchangeRates (apiKey : String) (http : Option HttpResult)
    (baseCurrency : List Char) :
    Except FetchError ExchangeRateResponse × Nat :=
  if goLen baseCurrency ≠ 3 then (Except.error FetchError.badLength, 0)
  else if ¬ baseCurrency.all isUppercaseAZ then (Except.error FetchError.notUppercase, 0)
  else
    match http with
    | none => (Except.error FetchError.network, 1)
    | some r =>
      if r.status ≠ 200 then (Except.error (FetchError.badStatus r.status), 1)
      else
        match r.body with
        | none => (Except.error FetchError.decodeFailed, 1)
        | some resp =>
          if resp.result ≠ "" ∧ resp.result ≠ "success" then
            (Except.error (FetchError.apiResult resp.result), 1)
          else (Except.ok resp, 1)

/-- Spec-side validity predicate, written from the spec's words:
"exactly 3 characters, all uppercase ASCII letters".  Compared against
the source checks (byte length 3 plus per-rune range check). -/
def specValidCurrency (s : List Char) : Prop :=
  s.length = 3 ∧ ∀ c ∈ s, isUppercaseAZ c = true

instance (s : List Char) : Decidable (specValidCurrency s) := by
  unfold specValidCurrency; infer_instance

/-! ### The handler -/

/-- Outcome counters local to one invocation. -/
structure Counts where
  success : Nat
  error : Nat
  skipped : Nat
deriving DecidableEq

/-- How one loop iteration ended: which single counter it incremented. -/
inductive StepOutcome where
  | succeeded : StepOutcome
  | errored : StepOutcome
  | skipped : StepOutcome
deriving DecidableEq

/-- The counter increment the loop body performs for an outcome. -/
def bump (counts : Counts) : StepOutcome → Counts
  | StepOutcome.succeeded => { counts with success := counts.success + 1 }
  | StepOutcome.errored => { counts with error := counts.error + 1 }
  | StepOutcome.skipped => { counts with skipped := counts.skipped + 1 }

/-- Per-invocation environment: the provider API key, and per-currency
oracles for the outcomes of the external calls.  `http c` is the
transport result of the one request `fetchExchangeRates` may issue for
`c`; `getFails c` makes `checkExistingExchangeRates` fail (store error /
unmarshal error); `putFails c` makes `storeExchangeRates` fail (marshal /
`PutItem` error). -/
structure Env where
  apiKey : String
  http : String → Option HttpResult
  getFails : String → Bool
  putFails : String → Bool

/-- Result of one iteration of the handler's currency loop:
the table afterwards, which counter was incremented, and how many times
`fetchExchangeRates` and `storeExchangeRates` were called. -/
structure StepResult where
  table : Table
  outcome : StepOutcome
  fetchCalls : Nat
  putCalls : Nat
deriving DecidableEq

/-- One iteration of the handler loop (main.go lines 124–172) for
currency `c`: check-before-fetch, fetch, store, with every error turned
into the `errored` outcome and the iteration ending there. -/
def processCurrency (env : Env) (now : Nat) (date : String) (table : Table)
    (c : String) : StepResult :=
  if env.getFails c then ⟨table, StepOutcome.errored, 0, 0⟩
  else
    match checkExistingExchangeRates table c date with
    | some _ => ⟨table, StepOutcome.skipped, 0, 0⟩
    | none =>
      match fetchExchangeRates env.apiKey (env.http c) c.data with
      | (Except.error _, _) => ⟨table, StepOutcome.errored, 1, 0⟩
      | (Except.ok rates, _) =>
        if env.putFails c then ⟨table, StepOutcome.errored, 1, 1⟩
        else ⟨storeExchangeRates table c date rates now, StepOutcome.succeeded, 1, 1⟩

/-- Result of the whole currency loop: final table, final counters, and
the per-iteration trace (currency visited, outcome), in visit order. -/
structure RunResult where
  table : Table
  counts : Counts
  trace : List (String × StepOutcome)
deriving DecidableEq

/-- The handler's `for i, baseCurrency := range supportedCurrencies`
loop, threading the table and the three counters. -/
def processList (env : Env) (now : Nat) (date : String) :
    List String → Table → Counts → RunResult
  | [], table, counts => ⟨table, counts, []⟩
  | c :: rest, table, counts =>
    let step := processCurrency env now date table c
    let result := processList env now date rest step.table (bump counts step.outcome)
    ⟨result.table, result.counts, (c, step.outcome) :: result.trace⟩

/-- Result of one handler invocation: final table, supported-currencies
record state, final counters, and whether the handler returned an error. -/
structure HandlerResult where
  table : Table
  scs : Option SupportedCurrenciesRecord
  counts : Counts
  returnsError : Bool
deriving DecidableEq

/-- Go `handler`: best-effort supported-currencies write (`scsFails` is
its fault oracle; its outcome is only logged), the per-currency loop
starting from zero counters, then the classification at lines 183–187:
an error is returned iff `errorCount > 0 && successCount == 0 &&
skippedCount == 0`. -/
def handler (env : Env) (scsFails : Bool) (now : Nat) (date : String)
    (currencies : List String) (table : Table)
    (scs : Option SupportedCurrenciesRecord) : HandlerResult :=
  let scsAfter := (storeSupportedCurrencies scsFails currencies now scs).1
  let run := processList env now date currencies table ⟨0, 0, 0⟩
  { table := run.table
    scs := scsAfter
    counts := run.counts
    returnsError :=
      decide (run.counts.error > 0 ∧ run.counts.success = 0 ∧ run.counts.skipped = 0) }

/-! ### init: supported-currencies configuration -/

/-- The fixed default list in `init` (main.go line 84). -/
def defaultSupportedCurrencies : List String :=
  ["EUR", "GBP", "CHF", "SEK", "NOK", "DKK", "PLN", "CZK", "HUF",
   "RON", "UAH", "BYN", "RUB"]

/-- The currency-list part of Go `init`: a non-empty
`SUPPORTED_CURRENCIES` value is split on `"|"`, otherwise the default
list is used. -/
def parseSupportedCurrencies (s : String) : List String :=
  if s ≠ "" then s.splitOn "|" else defaultSupportedCurrencies

/-! ### Loop lemmas -/

/-- Unfolding lemma: `goLen` on a cons. -/
theorem goLen_cons (c : Char) (cs : List Char) :
    goLen (c :: cs) = utf8Bytes c + goLen cs := rfl

/-- An uppercase ASCII letter occupies one UTF-8 byte. -/
theorem utf8Bytes_of_upper {c : Char} (h : isUppercaseAZ c = true) :
    utf8Bytes c = 1 := by
  have hc : 65 ≤ c.toNat ∧ c.toNat ≤ 90 := by
    simpa [isUppercaseAZ] using h
  unfold utf8Bytes
  rw [if_pos (by omega)]

/-- On an all-uppercase-ASCII string, Go's byte length equals the
character count. -/
theorem goLen_of_upper {s : List Char} (h : s.all isUppercaseAZ = true) :
    goLen s = s.length := by
  induction s with
  | nil => rfl
  | cons c cs ih =>
    rw [List.all_cons, Bool.and_eq_true] at h
    rw [goLen_cons, utf8Bytes_of_upper h.1, ih h.2, List.length_cons]
    omega

/-- The trace of the loop lists exactly the input currencies, in order. -/
theorem processList_trace_fst (env : Env) (now : Nat) (date : String) :
    ∀ (cs : List String) (table : Table) (counts : Counts),
      ((processList env now date cs table counts).trace.map Prod.fst) = cs := by
  intro cs
  induction cs with
  | nil => intro table counts; rfl
  | cons c rest ih =>
    intro table counts
    simp only [processList, List.map_cons]
    rw [ih]

/-- The number of trace entries that ended with outcome `o`. -/
def countOutcome (o : StepOutcome) : List (String × StepOutcome) → Nat
  | [] => 0
  | p :: rest => (if p.2 = o then 1 else 0) + countOutcome o rest

/-- Each final counter equals its initial value plus the number of
iterations that ended with the corresponding outcome. -/
theorem processList_counts_eq (env : Env) (now : Nat) (date : String) :
    ∀ (cs : List String) (table : Table) (counts : Counts),
      ((processList env now date cs table counts).counts.error
          = counts.error + countOutcome StepOutcome.errored
              (processList env now date cs table counts).trace) ∧
        ((processList env now date cs table counts).counts.success
          = counts.success + countOutcome StepOutcome.succeeded
              (processList env now date cs table counts).trace) ∧
        ((processList env now date cs table counts).counts.skipped
          = counts.skipped + countOutcome StepOutcome.skipped
              (processList env now date cs table counts).trace) := by
  intro cs
  induction cs with
  | nil => intro table counts; simp [processList, countOutcome]
  | cons c rest ih =>
    intro table counts
    simp only [processList, countOutcome]
    obtain ⟨ihe, ihs, ihk⟩ :=
      ih (processCurrency env now date table c).table
        (bump counts (processCurrency env now date table c).outcome)
    refine ⟨?_, ?_, ?_⟩ <;>
      cases h : (processCurrency env now date table c).outcome <;>
        simp [h, bump] at ihe ihs ihk ⊢ <;> omega

/-- The three counters always sum to the initial sum plus the number of
currencies processed: each iteration increments exactly one counter. -/
theorem processList_sum (env : Env) (now : Nat) (date : String) :
    ∀ (cs : List String) (table : Table) (counts : Counts),
      (processList env now date cs table counts).counts.success
          + (processList env now date cs table counts).counts.error
          + (processList env now date cs table counts).counts.skipped
        = counts.success + counts.error + counts.skipped + cs.length := by
  intro cs
  induction cs with
  | nil => intro table counts; simp [processList]
  | cons c rest ih =>
    intro table counts
    simp only [processList, List.length_cons]
    have h := ih (processCurrency env now date table c).table
      (bump counts (processCurrency env now date table c).outcome)
    cases ho : (processCurrency env now date table c).outcome <;>
      simp [ho, bump] at h ⊢ <;> omega

/-! ### Claim theorems -/

/-- C1: the handler returns an invocation-level error if and only if,
after processing every configured currency, `errorCount > 0` and
`successCount = 0` and `skippedCount = 0`; in every other combination of
counts it returns success. -/
theorem handler_error_iff_all_failed (env : Env) (scsFails : Bool) (now : Nat)
    (date : String) (currencies : List String) (table : Table)
    (scs : Option SupportedCurrenciesRecord) :
    (handler env scsFails now date currencies table scs).returnsError = true ↔
      ((processList env now date currencies table ⟨0, 0, 0⟩).counts.error > 0 ∧
        (processList env now date currencies table ⟨0, 0, 0⟩).counts.success = 0 ∧
        (processList env now date currencies table ⟨0, 0, 0⟩).counts.skipped = 0) := by
  simp [handler]

/-- C3: for every environment (hence every pattern of per-currency
get/fetch/put failures) the loop visits every configured currency in
order exactly once, and each counter equals the number of iterations
that ended with the matching outcome — in particular every per-currency
error contributes exactly one error-counter increment and never aborts
the batch. -/
theorem loop_visits_all_and_isolates_errors (env : Env) (now : Nat)
    (date : String) (currencies : List String) (table : Table) :
    ((processList env now date currencies table ⟨0, 0, 0⟩).trace.map Prod.fst
        = currencies) ∧
      ((processList env now date currencies table ⟨0, 0, 0⟩).counts.error
        = countOutcome StepOutcome.errored
            (processList env now date currencies table ⟨0, 0, 0⟩).trace) ∧
      ((processList env now date currencies table ⟨0, 0, 0⟩).counts.success
        = countOutcome StepOutcome.succeeded
            (processList env now date currencies table ⟨0, 0, 0⟩).trace) ∧
      ((processList env now date currencies table ⟨0, 0, 0⟩).counts.skipped
        = countOutcome StepOutcome.skipped
            (processList env now date currencies table ⟨0, 0, 0⟩).trace) := by
  obtain ⟨he, hs, hk⟩ := processList_counts_eq env now date currencies table ⟨0, 0, 0⟩
  exact ⟨processList_trace_fst env now date currencies table ⟨0, 0, 0⟩,
    by simpa using he, by simpa using hs, by simpa using hk⟩

/-- C7: the outcome of the supported-currencies write has no effect on
the final table, the counters or the invocation classification — a
failed write is logged only and never contributes to invocation
failure. -/
theorem scs_write_failure_frame (env : Env) (now : Nat) (date : String)
    (currencies : List String) (table : Table)
    (scs : Option SupportedCurrenciesRecord) (b c : Bool) :
    ((handler env b now date currencies table scs).table
        = (handler env c now date currencies table scs).table) ∧
      ((handler env b now date currencies table scs).counts
        = (handler env c now date currencies table scs).counts) ∧
      ((handler env b now date currencies table scs).returnsError
        = (handler env c now date currencies table scs).returnsError) :=
  ⟨rfl, rfl, rfl⟩

/-- C9: with the configuration variable unset (empty) the configured
list is the fixed default list of exactly thirteen codes; with a
non-empty value the list is the value split on the pipe character. -/
theorem supported_currencies_configuration :
    parseSupportedCurrencies "" = defaultSupportedCurrencies ∧
      defaultSupportedCurrencies.length = 13 ∧
      ∀ s : String, s ≠ "" → parseSupportedCurrencies s = s.splitOn "|" := by
  refine ⟨rfl, rfl, ?_⟩
  intro s hs
  simp [parseSupportedCurrencies, hs]

/-- C9 witness: a concrete non-empty configuration value is split on the
pipe character. -/
theorem supported_currencies_configuration_witness :
    ("USD|JPY" : String) ≠ "" ∧
      parseSupportedCurrencies "USD|JPY" = "USD|JPY".splitOn "|" :=
  ⟨by decide, supported_currencies_configuration.2.2 "USD|JPY" (by decide)⟩

/-- C10: each iteration bumps exactly one counter, so at classification
time the three counters sum to the number of configured currencies; for
an empty configured list all three counters are zero and the handler
returns success. -/
theorem counters_partition_invariant (env : Env) (scsFails : Bool) (now : Nat)
    (date : String) (currencies : List String) (table : Table)
    (scs : Option SupportedCurrenciesRecord) :
    (∀ (counts : Counts) (o : StepOutcome),
        (bump counts o).success + (bump counts o).error + (bump counts o).skipped
          = counts.success + counts.error + counts.skipped + 1) ∧
      ((processList env now date currencies table ⟨0, 0, 0⟩).counts.success
          + (processList env now date currencies table ⟨0, 0, 0⟩).counts.error
          + (processList env now date currencies table ⟨0, 0, 0⟩).counts.skipped
        = currencies.length) ∧
      ((handler env scsFails now date [] table scs).counts = ⟨0, 0, 0⟩) ∧
      ((handler env scsFails now date [] table scs).returnsError = false) := by
  refine ⟨?_, ?_, rfl, rfl⟩
  · intro counts o
    cases o <;> simp [bump] <;> omega
  · simpa using processList_sum env now date currencies table ⟨0, 0, 0⟩

/-- C2: when the store read succeeds and already holds a record for
(currency, today), the per-currency step calls neither
`fetchExchangeRates` nor `storeExchangeRates`, leaves the table (hence
the stored record) unchanged, ends with the `skipped` outcome, and that
outcome increments only the skipped counter. -/
theorem existing_record_skips (env : Env) (now : Nat) (date : String)
    (table : Table) (c : String) (r : ExchangeRateRecord)
    (hget : env.getFails c = false)
    (hrec : checkExistingExchangeRates table c date = some r) :
    (processCurrency env now date table c
        = ⟨table, StepOutcome.skipped, 0, 0⟩) ∧
      ∀ counts : Counts, bump counts StepOutcome.skipped
        = ⟨counts.success, counts.error, counts.skipped + 1⟩ := by
  constructor
  · simp [processCurrency, hget, hrec]
  · intro counts; rfl

/-- Environment with no store faults and no reachable provider, used to
instantiate hypotheses at concrete inputs. -/
def envIdle : Env :=
  { apiKey := ""
    http := fun _ => none
    getFails := fun _ => false
    putFails := fun _ => false }

/-- A concrete stored record for (EUR, 2025-01-02). -/
def recEUR : ExchangeRateRecord :=
  { key := "EUR", sortKey := "2025-01-02", exchangeRates := [], updatedAt := 7 }

/-- C2 witness: with the record present and a fault-free read, the step
skips at a concrete input. -/
theorem existing_record_skips_witness :
    envIdle.getFails "EUR" = false ∧
      checkExistingExchangeRates [recEUR] "EUR" "2025-01-02" = some recEUR ∧
      ((processCurrency envIdle 9 "2025-01-02" [recEUR] "EUR"
          = ⟨[recEUR], StepOutcome.skipped, 0, 0⟩) ∧
        ∀ counts : Counts, bump counts StepOutcome.skipped
          = ⟨counts.success, counts.error, counts.skipped + 1⟩) :=
  ⟨rfl, by decide,
    existing_record_skips envIdle 9 "2025-01-02" [recEUR] "EUR" recEUR rfl (by decide)⟩

/-- C8: writing via `storeExchangeRates` and then reading via
`checkExistingExchangeRates` for the same (currency, date) returns a
record whose rates equal the written mapping and whose `UpdatedAt` is
the stamped current time, non-zero whenever the clock is. -/
theorem put_get_roundtrip (table : Table) (c date : String)
    (rates : ExchangeRateResponse) (now : Nat) (h : now ≠ 0) :
    (checkExistingExchangeRates (storeExchangeRates table c date rates now) c date
        = some ⟨c, date, rates.conversionRates, now⟩) ∧
      (⟨c, date, rates.conversionRates, now⟩ : ExchangeRateRecord).updatedAt ≠ 0 := by
  refine ⟨?_, h⟩
  simp [checkExistingExchangeRates, storeExchangeRates, getItem, putItem]

/-- C8 witness: round-trip at a concrete record and a non-zero clock. -/
theorem put_get_roundtrip_witness :
    (3 : Nat) ≠ 0 ∧
      ((checkExistingExchangeRates
            (storeExchangeRates [] "EUR" "2025-01-02" ⟨"success", "EUR", []⟩ 3)
            "EUR" "2025-01-02"
          = some ⟨"EUR", "2025-01-02",
              (⟨"success", "EUR", []⟩ : ExchangeRateResponse).conversionRates, 3⟩) ∧
        (⟨"EUR", "2025-01-02",
            (⟨"success", "EUR", []⟩ : ExchangeRateResponse).conversionRates, 3⟩ :
            ExchangeRateRecord).updatedAt ≠ 0) :=
  ⟨by decide, put_get_roundtrip [] "EUR" "2025-01-02" ⟨"success", "EUR", []⟩ 3 (by decide)⟩

/-- C4: an input that is not exactly 3 uppercase-ASCII characters makes
`fetchExchangeRates` fail with one of the two validation errors and
issue no HTTP request; an input that passes the check always issues
exactly one request, whatever the transport then does. -/
theorem fetch_validation_gates_network (apiKey : String)
    (http : Option HttpResult) (s : List Char) :
    (¬ specValidCurrency s →
        ((fetchExchangeRates apiKey http s).1 = Except.error FetchError.badLength ∨
          (fetchExchangeRates apiKey http s).1 = Except.error FetchError.notUppercase) ∧
        (fetchExchangeRates apiKey http s).2 = 0) ∧
      (specValidCurrency s → (fetchExchangeRates apiKey http s).2 = 1) := by
  by_cases hall : s.all isUppercaseAZ = true
  · have hlen : goLen s = s.length := goLen_of_upper hall
    by_cases h3 : s.length = 3
    · have hv : specValidCurrency s :=
        ⟨h3, fun c hc => by simpa using List.all_eq_true.mp hall c hc⟩
      refine ⟨fun hc => absurd hv hc, fun _ => ?_⟩
      unfold fetchExchangeRates
      rw [if_neg (by omega), if_neg (by simp [hall])]
      cases http with
      | none => rfl
      | some r =>
        simp only
        by_cases hs : r.status = 200
        · rw [if_neg (by omega)]
          cases hb : r.body with
          | none => rfl
          | some resp =>
            show (if resp.result ≠ "" ∧ resp.result ≠ "success"
                then (Except.error (FetchError.apiResult resp.result), 1)
                else (Except.ok resp, 1)).2 = 1
            by_cases hr : resp.result ≠ "" ∧ resp.result ≠ "success"
            · rw [if_pos hr]
            · rw [if_neg hr]
        · rw [if_pos hs]
    · have hnv : ¬ specValidCurrency s := fun hv => h3 hv.1
      refine ⟨fun _ => ?_, fun hv => absurd hv hnv⟩
      unfold fetchExchangeRates
      rw [if_pos (by omega)]
      exact ⟨Or.inl rfl, rfl⟩
  · have hnv : ¬ specValidCurrency s := fun hv =>
      hall (List.all_eq_true.mpr (fun c hc => by simpa using hv.2 c hc))
    refine ⟨fun _ => ?_, fun hv => absurd hv hnv⟩
    unfold fetchExchangeRates
    by_cases h3 : goLen s = 3
    · rw [if_neg (by omega), if_pos hall]
      exact ⟨Or.inr rfl, rfl⟩
    · rw [if_pos h3]
      exact ⟨Or.inl rfl, rfl⟩

/-- C4 witness: a concrete valid code issues exactly one request even
when the transport fails. -/
theorem fetch_validation_gates_network_witness :
    specValidCurrency ("EUR".data) ∧
      (fetchExchangeRates "" none ("EUR".data)).2 = 1 :=
  ⟨by decide, (fetch_validation_gates_network "" none ("EUR".data)).2 (by decide)⟩

/-- C5 counterexample: with no API key configured, an HTTP 200 response
whose body decodes (here with `result = "error"`) still makes fetch
fail — the result-field check is applied to the public endpoint's
response too. -/
theorem public_endpoint_result_check_counterexample :
    (fetchExchangeRates "" (some ⟨200, some ⟨"error", "EUR", []⟩⟩) ("EUR".data)).1
      = Except.error (FetchError.apiResult "error") := by
  rfl

/-- C5 amended: with no API key configured, fetch succeeds whenever the
HTTP status is 200 and the body decodes with a result field that is
empty (the public shape has none) or equal to "success"; the
result-field check reads the decoded body on both endpoints, so it is
only vacuous — not absent — on the documented public shape. -/
theorem public_endpoint_success_amended (r : HttpResult)
    (resp : ExchangeRateResponse) (s : List Char)
    (hv : specValidCurrency s) (hs : r.status = 200) (hb : r.body = some resp)
    (hr : resp.result = "" ∨ resp.result = "success") :
    (fetchExchangeRates "" (some r) s).1 = Except.ok resp := by
  obtain ⟨h3, hup⟩ := hv
  have hall : s.all isUppercaseAZ = true :=
    List.all_eq_true.mpr (fun c hc => by simpa using hup c hc)
  have hlen : goLen s = s.length := goLen_of_upper hall
  have h3len : goLen s = 3 := by omega
  rcases hr with h | h <;> simp [fetchExchangeRates, h3len, hall, hs, hb, h]

/-- C5 amended witness: a concrete public-shape 200 response (no result
field) is accepted. -/
theorem public_endpoint_success_amended_witness :
    specValidCurrency ("EUR".data) ∧
      (fetchExchangeRates "" (some ⟨200, some ⟨"", "EUR", []⟩⟩) ("EUR".data)).1
        = Except.ok ⟨"", "EUR", []⟩ :=
  ⟨by decide,
    public_endpoint_success_amended ⟨200, some ⟨"", "EUR", []⟩⟩ ⟨"", "EUR", []⟩
      ("EUR".data) (by decide) rfl rfl (Or.inl rfl)⟩

/-- The provider response of the C6 scenario for EUR. -/
def respEUR : ExchangeRateResponse :=
  { result := "success"
    baseCode := "EUR"
    conversionRates := [("USD", (11 : Rat) / 10), ("JPY", 160)] }

/-- The C6 scenario environment: no API key, no store faults, a good
response for EUR and a transport error for GBP. -/
def envScenario : Env :=
  { apiKey := ""
    http := fun c => if c = "EUR" then some ⟨200, some respEUR⟩ else none
    getFails := fun _ => false
    putFails := fun _ => false }

/-- C6: with currencies [EUR, GBP], an empty store, a successful
response for EUR and a network error for GBP, the EUR record is written
with exactly the two rates, no GBP record exists, the counts are
success 1 / error 1 / skipped 0, and the handler returns success. -/
theorem concrete_scenario_eur_gbp :
    ((handler envScenario false 42 "2025-03-04" ["EUR", "GBP"] [] none).table
        = [⟨"EUR", "2025-03-04", [("USD", (11 : Rat) / 10), ("JPY", 160)], 42⟩]) ∧
      (checkExistingExchangeRates
          (handler envScenario false 42 "2025-03-04" ["EUR", "GBP"] [] none).table
          "GBP" "2025-03-04" = none) ∧
      ((handler envScenario false 42 "2025-03-04" ["EUR", "GBP"] [] none).counts
        = ⟨1, 1, 0⟩) ∧
      ((handler envScenario false 42 "2025-03-04" ["EUR", "GBP"] [] none).returnsError
        = false) :=
  ⟨rfl, rfl, rfl, rfl⟩

end Cooker
